import Mathlib

/-!
Verification development for the homelab watcher (src/watcher.py): a
continuous-deployment loop that polls git-backed projects, detects drift
between the local head and the remote branch tip, and reconciles the local
docker-compose stacks.

The shallow embedding below translates the relevant functions of
`watcher.py` into Lean.  External effects (git commands, docker commands,
the network) are modelled by oracles supplied as explicit arguments; the
per-project state (`last_seen`, `pending` dictionaries of `main`) is an
explicit record threaded through a tick function.  Commit hashes are
plain strings; the empty string stands for a falsy Python value.
-/

namespace Homelab

/-- A deployable stack: a directory plus a compose file, as appended to the
`stacks` list in `main` (watcher.py lines 396-414). -/
structure Stack where
  dir : String
  file : String
deriving DecidableEq, Repr

/-- Per-project reconciliation state: the entries of the `last_seen` and
`pending` dictionaries of `main` (watcher.py lines 351-352) for one project
name.  `none` models a missing key. -/
structure ProjState where
  lastSeen : Option String
  pending : Option String
deriving DecidableEq, Repr

/-- Python truthiness of `dict.get(name)`: truthy iff the key is present and
its value is a non-empty string. -/
def pyTruthy : Option String → Bool
  | none => false
  | some s => s != ""

/-- Observable actions of one project tick, in order of occurrence:
a completed `git reset --hard origin/branch` (watcher.py line 394 via
line 171), a `compose_up_with_retry` invocation for one stack (line 419),
the success notification (lines 423-426) and the failure report of the
`except Exception` handler (lines 436-441). -/
inductive Event where
  | reset (target : String)
  | deployStack (s : Stack)
  | notifyDeployed (commit : String)
  | notifyFailed
deriving DecidableEq, Repr

/-- Environment oracle for one project in one tick of the `while True` loop
of `main`:  whether the git phase (`ensure_repo`, `fetch_origin`, both
`head_hash` calls, watcher.py lines 382-385) completes without raising;
the commit id `git rev-parse origin/branch` reports; whether
`reset_to_origin` (line 394) completes; the resolved stack list (explicit
entries or `discover_stacks`, lines 396-414); and the outcome of
`compose_up_with_retry` for the stack at each position (line 419). -/
structure TickEnv where
  gitOk : Bool
  remoteHead : String
  resetOk : Bool
  stackList : List Stack
  deployOk : Nat → Bool

/-- Result of one project tick: the project state after the tick, the local
head of the worktree after the tick, and the events that occurred. -/
structure TickOut where
  lastSeen : Option String
  pending : Option String
  localHead : String
  events : List Event
deriving DecidableEq, Repr

/-- Position of the first stack whose `compose_up_with_retry` raises, if
any: the loop at watcher.py lines 417-419 stops at the first failure. -/
def firstFailIdx (deployOk : Nat → Bool) (n : Nat) : Option Nat :=
  (List.range n).find? (fun i => ! deployOk i)

/-- One project body of the tick loop, watcher.py lines 370-441.
`lcl` is the current local head of the worktree (`head_hash(worktree,
"HEAD")`, line 384).  Control flow mirrors the source: if the git phase
raises, the `except Exception` handler reports and state is untouched;
otherwise `last_seen` is initialised on first observation (lines 387-388),
`needs_deploy = pending.get(name) or (remote != local)` (line 390); in the
deploy branch `pending[name] = remote or "pending"` is stored before the
hard reset (line 393), a successful reset moves the worktree head to the
remote tip, stacks are deployed in order until the first failure, and on
full success `last_seen[name] = remote or local` and `pending` is popped
(lines 427-428). -/
def projectTick (lcl : String) (st : ProjState) (env : TickEnv) : TickOut :=
  if env.gitOk = false then
    { lastSeen := st.lastSeen, pending := st.pending, localHead := lcl,
      events := [Event.notifyFailed] }
  else
    let remote := env.remoteHead
    let seen1 : Option String := some (st.lastSeen.getD lcl)
    if pyTruthy st.pending || (remote != lcl) then
      let pend1 : Option String := some (if remote = "" then "pending" else remote)
      if env.resetOk = false then
        { lastSeen := seen1, pending := pend1, localHead := lcl,
          events := [Event.notifyFailed] }
      else
        match firstFailIdx env.deployOk env.stackList.length with
        | some i =>
          { lastSeen := seen1, pending := pend1, localHead := remote,
            events := Event.reset remote ::
              ((env.stackList.take (i + 1)).map Event.deployStack ++ [Event.notifyFailed]) }
        | none =>
          { lastSeen := some (if remote = "" then lcl else remote), pending := none,
            localHead := remote,
            events := Event.reset remote ::
              (env.stackList.map Event.deployStack ++ [Event.notifyDeployed remote]) }
    else
      { lastSeen := seen1, pending := st.pending, localHead := lcl, events := [] }

/-- Several consecutive ticks for a single project: threads the worktree
head and the project state, collecting each tick's output. -/
def runTicks (lcl : String) (st : ProjState) : List TickEnv → (String × ProjState) × List TickOut
  | [] => ((lcl, st), [])
  | e :: rest =>
    let out := projectTick lcl st e
    let r := runTicks out.localHead ⟨out.lastSeen, out.pending⟩ rest
    (r.1, out :: r.2)

/-- Environment of a fully healthy tick: git phase succeeds, the remote tip
is `r`, the reset succeeds and every stack deploy succeeds. -/
def okEnv (r : String) (ss : List Stack) : TickEnv :=
  { gitOk := true, remoteHead := r, resetOk := true, stackList := ss,
    deployOk := fun _ => true }

/-! ### Notifications (watcher.py lines 59-94)

`send_discord` wraps the webhook POST in a bare `try/except Exception:
pass`; `send_email` has no exception handler at all.  The transport
outcome (the HTTP POST, the whole SMTP session) is an oracle of type
`Except Unit Unit`: `Except.error ()` models the transport raising. -/

/-- The `notify.email` mapping handed to `send_email`.  `none` at the call
site models a falsy `cfg` (`if not cfg`). -/
structure EmailCfg where
  enabled : String
  toAddrs : String
  fromAddr : String
  smtpHost : String
  smtpPort : String
  username : String
  password : String
  starttls : String
deriving DecidableEq, Repr

/-- `str.lower()` spelled over the character list so that it evaluates
inside the kernel. -/
def strLower (s : String) : String := String.mk (s.data.map Char.toLower)

/-- `str.strip()` spelled over the character list: drop whitespace at both
ends. -/
def strTrim (s : String) : String :=
  String.mk (((s.data.dropWhile Char.isWhitespace).reverse.dropWhile
    Char.isWhitespace).reverse)

/-- Python truthiness of the enabled-style flags:
`str(v).lower() in ("true", "1", "yes")`. -/
def truthyFlag (s : String) : Bool :=
  strLower s == "true" || strLower s == "1" || strLower s == "yes"

/-- `_split_csv` (watcher.py lines 72-75): split on commas, strip each
piece, keep the non-empty ones (`if p and p.strip()` is equivalent to the
stripped piece being non-empty). -/
def splitCsv (val : String) : List String :=
  if val = "" then []
  else ((val.data.splitOn ',').filter (fun p => strTrim (String.mk p) != "")).map
    (fun p => strTrim (String.mk p))

/-- `send_discord` (watcher.py lines 59-70): returns immediately on an
empty webhook; otherwise the whole POST is inside `try/except Exception:
pass`, so the call returns normally whatever the transport does. -/
def send_discord (webhook : String) (postResult : Except Unit Unit) : Except Unit Unit :=
  if webhook = "" then Except.ok ()
  else
    match postResult with
    | Except.ok () => Except.ok ()
    | Except.error () => Except.ok ()

/-- `send_email` (watcher.py lines 77-94): returns early when the config is
falsy, not enabled, or resolves to no recipients; otherwise it runs the
SMTP session with NO exception handler, so a raising transport propagates
to the caller. -/
def send_email (cfg : Option EmailCfg) (smtpResult : Except Unit Unit) : Except Unit Unit :=
  match cfg with
  | none => Except.ok ()
  | some c =>
    if truthyFlag c.enabled = false then Except.ok ()
    else if splitCsv c.toAddrs = [] then Except.ok ()
    else smtpResult

/-! ### Startup validation and the main entry (watcher.py lines 260-270,
274-357)

`validate_projects` raises `SystemExit` (whose string payload makes the
interpreter exit with status 1) for the first project missing `repo_url`
or `path`; `main` calls it on a non-empty explicit `projects` list before
the tick loop starts. -/

/-- A configured project: the fields of one `projects[]` entry that the
claims need (watcher.py lines 260-270 and 370-380). -/
structure Project where
  name : String
  repoUrl : String
  path : String
deriving DecidableEq, Repr

/-- `validate_projects` (watcher.py lines 260-270): raises `SystemExit`
(modelled as `Except.error` carrying the diagnostic) on the first project
whose `repo_url` or `path` is empty. -/
def validate_projects : List Project → Except String Unit
  | [] => Except.ok ()
  | p :: rest =>
    if p.repoUrl = "" ∨ p.path = "" then
      Except.error ("FATAL: project " ++ p.name ++
        " in watcher.yaml is missing repo_url or path.")
    else validate_projects rest

/-- One project together with its mutable world: the worktree head and the
per-project reconciliation state. -/
structure ProjCell where
  proj : Project
  localHead : String
  state : ProjState

/-- Result of running one tick over the whole project list (the `for proj
in projects` loop, watcher.py lines 370-441).  `exit done` models the
`except SystemExit` handler at lines 432-435: the projects processed so
far keep their outputs, then `main` returns (terminating the loop).
`ok done` means every project body ran (exceptions per project caught). -/
inductive TickAll where
  | exit (done : List (ProjCell × TickOut))
  | ok (done : List (ProjCell × TickOut))

/-- The `for proj in projects` body applied in configuration order.  An
empty `repo_url` raises `SystemExit` (watcher.py lines 377-378) before any
other action for that project; the `if not worktree` check at line 379 can
never fire because a `Path` object is always truthy, so only `repo_url` is
tested here.  Any other failure is caught per project by the
`except Exception` handler inside `projectTick`. -/
def tickProjects : List (ProjCell × TickEnv) → TickAll
  | [] => TickAll.ok []
  | (c, env) :: rest =>
    if c.proj.repoUrl = "" then TickAll.exit []
    else
      let out := projectTick c.localHead c.state env
      let c2 : ProjCell := ⟨c.proj, out.localHead, ⟨out.lastSeen, out.pending⟩⟩
      match tickProjects rest with
      | TickAll.exit done => TickAll.exit ((c2, out) :: done)
      | TickAll.ok done => TickAll.ok ((c2, out) :: done)

/-- The tick loop of `main` over a finite schedule of per-tick environments
(one `TickEnv` per project per tick).  Returns the final cells, the
per-tick outputs, and whether the loop was terminated by `SystemExit`. -/
def runLoop (cells : List ProjCell) :
    List (List TickEnv) → List ProjCell × List (List TickOut) × Bool
  | [] => (cells, [], false)
  | envs :: rest =>
    match tickProjects (cells.zip envs) with
    | TickAll.exit done => (done.map Prod.fst, [done.map Prod.snd], true)
    | TickAll.ok done =>
      let r := runLoop (done.map Prod.fst) rest
      (r.1, done.map Prod.snd :: r.2.1, r.2.2)

/-- `main` with an explicit non-empty `projects` list in the configuration
(watcher.py lines 320-322): `validate_projects` runs before the banner,
the startup notification and the tick loop, so a validation failure
(`SystemExit` with a string payload, which makes the interpreter exit
with status 1) terminates the process before any project is processed.
An empty configured list is not validated (implicit mode takes over). -/
def runMain (cfgProjects : List Project) (cells : List ProjCell)
    (envss : List (List TickEnv)) :
    Except String (List ProjCell × List (List TickOut) × Bool) :=
  if cfgProjects.isEmpty then Except.ok (runLoop cells envss)
  else
    match validate_projects cfgProjects with
    | Except.error msg => Except.error msg
    | Except.ok () => Except.ok (runLoop cells envss)

/-! ### Stack deployment retry (watcher.py lines 125-144)

`compose_up_with_retry` calls `compose_up` in a loop; on an exception it
re-raises once `time.time() - start > total_timeout`, otherwise sleeps
`min(5 + attempt, 20)` and retries.  Time is modelled in abstract units:
`dur a` is how long attempt number `a` takes, and the sleeps add to the
elapsed clock exactly as `time.sleep` does. -/

/-- The sleep taken after failed attempt number `attempt`:
`min(5 + attempt, 20)` (watcher.py line 144). -/
def composeRetryDelay (attempt : Nat) : Nat := min (5 + attempt) 20

/-- Outcome of `compose_up_with_retry`: whether it returned normally or
re-raised, the number of `compose_up` attempts made, the sleeps performed
between attempts in order, and the elapsed clock at the end. -/
structure RetryOut where
  success : Bool
  attempts : Nat
  delays : List Nat
  elapsed : Nat
deriving DecidableEq, Repr

/-- The `while True` loop of `compose_up_with_retry` (watcher.py lines
135-144), entered with `elapsed` time already on the clock and `attempt`
attempts already made.  `attemptOk a` tells whether the `a`-th
`compose_up` call returns normally; `dur a` is its duration.  The loop
terminates because every retry adds at least 6 time-units of sleep while
the clock may not exceed `totalTimeout` at a retry. -/
def retryLoop (attemptOk : Nat → Bool) (dur : Nat → Nat) (totalTimeout : Nat)
    (elapsed attempt : Nat) (delays : List Nat) : RetryOut :=
  if attemptOk (attempt + 1) = true then
    { success := true, attempts := attempt + 1, delays := delays,
      elapsed := elapsed + dur (attempt + 1) }
  else if _h : totalTimeout < elapsed + dur (attempt + 1) then
    { success := false, attempts := attempt + 1, delays := delays,
      elapsed := elapsed + dur (attempt + 1) }
  else
    retryLoop attemptOk dur totalTimeout
      (elapsed + dur (attempt + 1) + composeRetryDelay (attempt + 1))
      (attempt + 1)
      (delays ++ [composeRetryDelay (attempt + 1)])
termination_by totalTimeout + 1 - elapsed
decreasing_by
  simp only [composeRetryDelay]
  omega

/-- `compose_up_with_retry` (watcher.py lines 132-144): the retry loop
started with a fresh clock and no attempts made. -/
def compose_up_with_retry (attemptOk : Nat → Bool) (dur : Nat → Nat)
    (totalTimeout : Nat) : RetryOut :=
  retryLoop attemptOk dur totalTimeout 0 0 []

/-! ### Stack discovery (watcher.py lines 176, 191-218)

The directory tree is modelled as an inductive tree: each directory holds
a list of file names and a list of named subdirectories (readable, as the
`PermissionError` branch is an environment condition outside the model).
The recursive `walk(dir_path, depth)` of `discover_stacks` stops when
`depth > max_depth`; here the same control flow is phrased with the
remaining budget `fuel = max_depth + 1 - depth`, which is `0` exactly when
the Python guard fires.  Results are de-duplicated through an
insertion-ordered dictionary keyed by directory, exactly as the `dedup`
dict at lines 215-217. -/

/-- `COMPOSE_FILENAMES` (watcher.py line 176). -/
def COMPOSE_FILENAMES : List String :=
  ["docker-compose.yml", "docker-compose.yaml", "compose.yml", "compose.yaml"]

/-- The default exclusion set of `discover_stacks` (watcher.py line 192). -/
def defaultExcludes : List String :=
  [".git", ".github", ".gitea", ".vscode", "__pycache__"]

/-- A directory: its plain files and its named subdirectories. -/
inductive FSTree where
  | node (files : List String) (children : List (String × FSTree)) : FSTree

/-- The inner loop at watcher.py lines 204-208: the first canonical compose
filename present among the directory's files, if any. -/
def firstCompose (files : List String) : Option String :=
  COMPOSE_FILENAMES.find? (fun c => files.contains c)

/-- The entry the walk appends for one child directory (watcher.py lines
204-208): the child paired with the first canonical compose filename it
directly contains, or nothing. -/
def stackEntry (path : List String) (name : String) : FSTree → List (List String × String)
  | FSTree.node cfiles _ =>
    match firstCompose cfiles with
    | some f => [(path ++ [name], f)]
    | none => []

/-- The nested `walk(dir_path, depth)` of `discover_stacks` (watcher.py
lines 195-211), with `fuel = max_depth + 1 - depth`:  with `fuel = 0` the
guard `depth > max_depth` fires and nothing is visited; otherwise each
child directory is skipped when its name is excluded, appended when it
directly holds a compose file, and then recursed into with one less unit
of budget — exactly the order of appends the Python closure performs. -/
def walkFuel (excludes : List String) : Nat → List String → FSTree → List (List String × String)
  | 0, _, _ => []
  | fuel + 1, path, FSTree.node _ children =>
    children.flatMap (fun c =>
      if excludes.contains c.1 then []
      else stackEntry path c.1 c.2 ++ walkFuel excludes fuel (path ++ [c.1]) c.2)

/-- One assignment `dedup[str(d)] = (d, f)` on an insertion-ordered
dictionary: an existing key keeps its position and takes the new value, a
new key is appended at the end. -/
def dictInsert (d : List (List String × String)) (y : List String × String) :
    List (List String × String) :=
  if d.any (fun z => z.1 = y.1) then
    d.map (fun z => if z.1 = y.1 then (z.1, y.2) else z)
  else d ++ [y]

/-- The de-duplication pass of `discover_stacks` (watcher.py lines
215-218): fold the walk results into the dictionary and read it back. -/
def dedupByDir (l : List (List String × String)) : List (List String × String) :=
  l.foldl dictInsert []

/-- `discover_stacks` (watcher.py lines 191-218): walk from the root at
depth 0 (budget `max_depth + 1`) and de-duplicate by directory.  Each
result is the path of the stack directory relative to the root, with the
compose filename found in it. -/
def discover_stacks (root : FSTree) (maxDepth : Nat) (excludes : List String) :
    List (List String × String) :=
  dedupByDir (walkFuel excludes (maxDepth + 1) [] root)

/-- Recogniser for completed hard resets among tick events. -/
def isResetEv : Event → Bool
  | Event.reset _ => true
  | _ => false

/-- Recogniser for success notifications (one per full deploy sequence)
among tick events. -/
def isDeployedEv : Event → Bool
  | Event.notifyDeployed _ => true
  | _ => false

/-- Number of events satisfying `p` across a list of tick outputs. -/
def countEv (p : Event → Bool) (outs : List TickOut) : Nat :=
  (outs.map (fun o => (o.events.filter p).length)).sum

/-- The sleeps the retry loop performs after attempts `a + 1`, `a + 2`,
..., `a + k`: the expected shape of `RetryOut.delays`. -/
def delaysFrom (a k : Nat) : List Nat :=
  (List.range k).map (fun i => composeRetryDelay (a + 1 + i))

/-! ## Theorems for the claims -/

/-- C2 counterexample.  The claim says every failure sending an email is
swallowed inside the Notifier.  But `send_email` (watcher.py lines 77-94)
has no exception handler: with an enabled config carrying one recipient
and an SMTP session that raises, the exception propagates to the caller
instead of being swallowed. -/
theorem C2_counterexample :
    send_email
      (some ⟨"true", "ops@example.com", "w@local", "smtp.example.com", "587",
        "", "", "true"⟩)
      (Except.error ()) = Except.error () ∧
    (Except.error () : Except Unit Unit) ≠ Except.ok () := by
  constructor
  · rfl
  · intro h
    exact Except.noConfusion h

/-- C2 (amended): `send_discord` never lets a webhook failure escape
(watcher.py lines 59-70: the POST sits in `try/except Exception: pass`);
`send_email` returns normally when the config is absent, not enabled, or
resolves to no recipients — but when email is enabled with at least one
recipient, the outcome of the SMTP session (including a raised exception)
propagates unchanged to the caller. -/
theorem C2_notifier_amended :
    (∀ (w : String) (r : Except Unit Unit), send_discord w r = Except.ok ()) ∧
    (∀ r : Except Unit Unit, send_email none r = Except.ok ()) ∧
    (∀ (c : EmailCfg) (r : Except Unit Unit), truthyFlag c.enabled = false →
      send_email (some c) r = Except.ok ()) ∧
    (∀ (c : EmailCfg) (r : Except Unit Unit), truthyFlag c.enabled = true →
      splitCsv c.toAddrs ≠ [] → send_email (some c) r = r) := by
  refine ⟨?_, ?_, ?_, ?_⟩
  · intro w r
    unfold send_discord
    rcases r with e | u
    · cases e; simp
    · cases u; simp
  · intro r; rfl
  · intro c r h
    simp [send_email, h]
  · intro c r h1 h2
    simp [send_email, h1, h2]

/-- C2 witness: the amended theorem applied at concrete inputs — an
unreachable webhook URL (POST raises) and a disabled email config both
return normally. -/
theorem C2_witness :
    send_discord "http://unreachable.example/hook" (Except.error ()) = Except.ok () ∧
    send_email
      (some ⟨"false", "ops@example.com", "w@local", "smtp.example.com", "587",
        "", "", "true"⟩)
      (Except.error ()) = Except.ok () ∧
    send_email
      (some ⟨"true", "ops@example.com", "w@local", "smtp.example.com", "587",
        "", "", "true"⟩)
      (Except.ok ()) = Except.ok () := by
  refine ⟨?_, ?_, ?_⟩
  · exact C2_notifier_amended.1 "http://unreachable.example/hook" (Except.error ())
  · exact C2_notifier_amended.2.2.1 _ (Except.error ()) (by decide)
  · exact C2_notifier_amended.2.2.2 _ (Except.ok ()) (by decide) (by decide)

/-- If some configured project has an empty `repo_url` or `path`,
`validate_projects` raises `SystemExit` (watcher.py lines 260-270). -/
theorem validate_projects_error (ps : List Project) (p : Project)
    (hmem : p ∈ ps) (hbad : p.repoUrl = "" ∨ p.path = "") :
    ∃ msg, validate_projects ps = Except.error msg := by
  induction ps with
  | nil => cases hmem
  | cons q rest ih =>
    by_cases hq : q.repoUrl = "" ∨ q.path = ""
    · exact ⟨"FATAL: project " ++ q.name ++
        " in watcher.yaml is missing repo_url or path.",
        by simp [validate_projects, hq]⟩
    · rcases List.mem_cons.mp hmem with hpq | hrest
      · exact absurd (hpq ▸ hbad) hq
      · rcases ih hrest with ⟨msg, hmsg⟩
        exact ⟨msg, by simp [validate_projects, hq, hmsg]⟩

/-- C3: with an explicit `projects` list containing a project whose
`repo_url` or `path` is empty, `main` terminates before the tick loop:
`validate_projects` raises `SystemExit` with a diagnostic string
(the interpreter exits with status 1 on a string payload), no
project is processed whatever the schedule would have been, and the other
projects' validity does not matter (watcher.py lines 260-270, 320-322). -/
theorem C3_fatal_validation (ps : List Project) (p : Project)
    (hmem : p ∈ ps) (hbad : p.repoUrl = "" ∨ p.path = "") :
    ∃ msg, ∀ (cells : List ProjCell) (envss : List (List TickEnv)),
      runMain ps cells envss = Except.error msg := by
  rcases validate_projects_error ps p hmem hbad with ⟨msg, hmsg⟩
  refine ⟨msg, fun cells envss => ?_⟩
  have hne : ps.isEmpty = false := by
    cases ps
    · cases hmem
    · rfl
  simp [runMain, hne, hmsg]

/-- C3 witness: a two-project configuration where the second project is
valid and the first has an empty `repo_url` still dies at validation. -/
theorem C3_witness :
    ∃ msg, ∀ (cells : List ProjCell) (envss : List (List TickEnv)),
      runMain
        [⟨"bad", "", "/srv/bad"⟩, ⟨"good", "https://example.com/r.git", "/srv/good"⟩]
        cells envss = Except.error msg := by
  exact C3_fatal_validation _ ⟨"bad", "", "/srv/bad"⟩ (by simp) (by simp)

/-- C5 counterexample.  The claim says the very first tick of a project
never deploys, regardless of whether the remote head differs.  With
`last_seen` unset, a local head `a` and a remote head `b`, the first tick
runs a hard reset and a full deploy sequence (watcher.py line 390 tests
only `pending` and `remote != local`, never `last_seen`). -/
theorem C5_counterexample :
    (projectTick "a" ⟨none, none⟩ (okEnv "b" [])).events =
      [Event.reset "b", Event.notifyDeployed "b"] := by
  decide

/-- C5 (amended): on the first tick for a project, `last_seen` is set to
the local head as a baseline, and the tick performs no reset and no deploy
provided the remote head equals the local head; if the remote differs,
the first tick deploys exactly like any other tick. -/
theorem C5_first_tick_amended (lcl : String) (env : TickEnv)
    (hgit : env.gitOk = true) (heq : env.remoteHead = lcl) :
    projectTick lcl ⟨none, none⟩ env = ⟨some lcl, none, lcl, []⟩ := by
  simp [projectTick, hgit, heq, pyTruthy]

/-- C5 witness: the amended theorem at a healthy in-sync environment. -/
theorem C5_witness :
    projectTick "abc1234" ⟨none, none⟩ (okEnv "abc1234" [⟨"s", "compose.yml"⟩]) =
      ⟨some "abc1234", none, "abc1234", []⟩ :=
  C5_first_tick_amended "abc1234" (okEnv "abc1234" [⟨"s", "compose.yml"⟩]) rfl rfl

/-- C9 counterexample.  The claim says a tick with `local == remote` and
`pending` unset mutates no per-project state.  On the first observation of
a project such a tick still writes `last_seen` (watcher.py lines 387-388):
starting from an unset `last_seen` it ends `some "a"`. -/
theorem C9_counterexample :
    (projectTick "a" ⟨none, none⟩ (okEnv "a" [])).events = [] ∧
    (projectTick "a" ⟨none, none⟩ (okEnv "a" [])).lastSeen ≠
      (ProjState.mk none none).lastSeen := by
  constructor
  · decide
  · decide

/-- C9 (amended): a tick in which the local head equals the remote head,
`pending` is unset and the baseline `last_seen` has already been captured
performs no reset, no deploy, no notification, and leaves `last_seen`,
`pending` and the worktree untouched. -/
theorem C9_noop_tick_amended (lcl s : String) (env : TickEnv)
    (hgit : env.gitOk = true) (heq : env.remoteHead = lcl) :
    projectTick lcl ⟨some s, none⟩ env = ⟨some s, none, lcl, []⟩ := by
  simp [projectTick, hgit, heq, pyTruthy]

/-- C9 witness: the amended theorem at a healthy in-sync environment. -/
theorem C9_witness :
    projectTick "abc1234" ⟨some "abc1234", none⟩ (okEnv "abc1234" []) =
      ⟨some "abc1234", none, "abc1234", []⟩ :=
  C9_noop_tick_amended "abc1234" "abc1234" (okEnv "abc1234" []) rfl rfl

/-- C10: when a deploy is needed but the resolved stack list is empty, the
tick is still a fully successful deploy: no compose command runs (no
deploy event), the reset still happens, the deployed notification is sent,
`last_seen` becomes the remote head and `pending` is cleared (watcher.py
lines 416-428, the `else` at line 420 only logs). -/
theorem C10_empty_stacks_deploy (lcl : String) (st : ProjState) (env : TickEnv)
    (hgit : env.gitOk = true) (hreset : env.resetOk = true)
    (hstacks : env.stackList = []) (hrem : env.remoteHead ≠ "")
    (hneeds : (pyTruthy st.pending || (env.remoteHead != lcl)) = true) :
    projectTick lcl st env =
      ⟨some env.remoteHead, none, env.remoteHead,
        [Event.reset env.remoteHead, Event.notifyDeployed env.remoteHead]⟩ := by
  simp [projectTick, hgit, hreset, hstacks, hrem, hneeds, firstFailIdx]

/-- C10 witness: a tick owing a deploy (remote differs from local) with an
empty discovered stack list. -/
theorem C10_witness :
    projectTick "a" ⟨some "a", none⟩ (okEnv "b" []) =
      ⟨some "b", none, "b", [Event.reset "b", Event.notifyDeployed "b"]⟩ :=
  C10_empty_stacks_deploy "a" ⟨some "a", none⟩ (okEnv "b" []) rfl rfl rfl
    (by decide) (by decide)

/-- Everything `stackEntry` produces is the child path itself. -/
theorem stackEntry_mem (path : List String) (nm : String) (t : FSTree)
    (e : List String × String) (he : e ∈ stackEntry path nm t) :
    e.1 = path ++ [nm] := by
  cases t with
  | node cfiles cchildren =>
    revert he
    simp only [stackEntry]
    cases firstCompose cfiles with
    | none => intro he; cases he
    | some f =>
      intro he
      rw [List.mem_singleton.mp he]

/-- Every entry the walk produces lies strictly below the argument
directory, within the remaining depth budget, and touches no excluded
name. -/
theorem walkFuel_mem (excludes : List String) :
    ∀ (fuel : Nat) (path : List String) (t : FSTree)
      (e : List String × String), e ∈ walkFuel excludes fuel path t →
      ∃ suffix, e.1 = path ++ suffix ∧ 1 ≤ suffix.length ∧
        suffix.length ≤ fuel ∧
        ∀ nm ∈ suffix, excludes.contains nm = false := by
  intro fuel
  induction fuel with
  | zero =>
    intro path t e he
    cases t with
    | node files children => simp [walkFuel] at he
  | succ fuel ih =>
    intro path t e he
    cases t with
    | node files children =>
      simp only [walkFuel, List.mem_flatMap] at he
      rcases he with ⟨c, hc, hbody⟩
      cases hex : excludes.contains c.1 with
      | true =>
        rw [if_pos hex] at hbody
        cases hbody
      | false =>
        have hcond : ¬ excludes.contains c.1 = true := by
          rw [hex]
          exact Bool.false_ne_true
        rw [if_neg hcond] at hbody
        rcases List.mem_append.mp hbody with hhere | hrec
        · refine ⟨[c.1], stackEntry_mem path c.1 c.2 e hhere, by simp, by simp, ?_⟩
          intro nm hnm
          rw [List.mem_singleton.mp hnm]
          exact hex
        · rcases ih (path ++ [c.1]) c.2 e hrec with ⟨suffix, hs1, hs2, hs3, hs4⟩
          refine ⟨c.1 :: suffix, ?_, by simp, by simpa using Nat.succ_le_succ hs3, ?_⟩
          · rw [hs1]
            simp
          · intro nm hnm
            rcases List.mem_cons.mp hnm with h1 | h2
            · rw [h1]; exact hex
            · exact hs4 nm h2

/-- Membership in one dictionary assignment: the entry was already present
(key unchanged, value possibly overwritten) or carries the new key. -/
theorem dictInsert_key (d : List (List String × String))
    (y e : List String × String) (he : e ∈ dictInsert d y) :
    (∃ z ∈ d, z.1 = e.1) ∨ e.1 = y.1 := by
  unfold dictInsert at he
  by_cases hk : d.any (fun z => z.1 = y.1)
  · rw [if_pos hk] at he
    rcases List.mem_map.mp he with ⟨z, hz, hze⟩
    by_cases hzy : z.1 = y.1
    · right
      rw [if_pos hzy] at hze
      rw [← hze]
      exact hzy
    · left
      rw [if_neg hzy] at hze
      exact ⟨z, hz, by rw [hze]⟩
  · rw [if_neg hk] at he
    rcases List.mem_append.mp he with h1 | h2
    · exact Or.inl ⟨e, h1, rfl⟩
    · right
      rw [List.mem_singleton.mp h2]

/-- Every key that survives the dictionary fold comes from the seed
dictionary or from the list folded in. -/
theorem foldl_dictInsert_key :
    ∀ (l : List (List String × String)) (d : List (List String × String))
      (e : List String × String), e ∈ l.foldl dictInsert d →
      (∃ z ∈ d, z.1 = e.1) ∨ ∃ y ∈ l, y.1 = e.1 := by
  intro l
  induction l with
  | nil =>
    intro d e hd
    exact Or.inl ⟨e, hd, rfl⟩
  | cons y rest ih =>
    intro d e hd
    rcases ih (dictInsert d y) e hd with ⟨z, hz, hzk⟩ | ⟨w, hw, hwk⟩
    · rcases dictInsert_key d y z hz with ⟨w, hw, hwk⟩ | hk
      · exact Or.inl ⟨w, hw, hwk.trans hzk⟩
      · exact Or.inr ⟨y, List.mem_cons_self y rest, hk ▸ hzk⟩
    · exact Or.inr ⟨w, List.mem_cons_of_mem y hw, hwk⟩

/-- Every key of the de-duplicated result is a key of the walk result. -/
theorem dedupByDir_key (l : List (List String × String))
    (e : List String × String) (he : e ∈ dedupByDir l) :
    ∃ y ∈ l, y.1 = e.1 := by
  rcases foldl_dictInsert_key l [] e he with ⟨z, hz, _⟩ | hy
  · cases hz
  · exact hy

/-- C4 counterexample.  The claim says discovery returns only stacks at
most `max_depth` levels below the root, and in particular that a tree
whose only compose file sits three levels down yields an empty list at
`max_depth = 2`.  The walk guard `depth > max_depth` is tested on the
parent, so `discover_stacks` with `max_depth = 2` does return the stack
directory three levels below the root (watcher.py lines 195-213). -/
theorem C4_counterexample :
    discover_stacks
      (FSTree.node []
        [("a", FSTree.node []
          [("b", FSTree.node []
            [("c", FSTree.node ["docker-compose.yml"] [])])])])
      2 defaultExcludes = [(["a", "b", "c"], "docker-compose.yml")] ∧
    2 < (["a", "b", "c"] : List String).length := by
  constructor
  · decide
  · decide

/-- C4 (amended): `discover_stacks root max_depth` returns only stacks at
most `max_depth + 1` directory levels below the root (the guard is tested
on the parent directory, so children one level past the budget are still
collected), and never returns anything from inside an excluded directory:
every component of a returned path is a non-excluded name. -/
theorem C4_discovery_bounds_amended (root : FSTree) (maxDepth : Nat)
    (excludes : List String) (e : List String × String)
    (he : e ∈ discover_stacks root maxDepth excludes) :
    1 ≤ e.1.length ∧ e.1.length ≤ maxDepth + 1 ∧
    ∀ nm ∈ e.1, excludes.contains nm = false := by
  rcases dedupByDir_key _ e he with ⟨y, hy, hyk⟩
  rcases walkFuel_mem excludes (maxDepth + 1) [] root y hy with
    ⟨suffix, hs1, hs2, hs3, hs4⟩
  rw [List.nil_append] at hs1
  rw [← hyk, hs1]
  exact ⟨hs2, hs3, hs4⟩

theorem delaysFrom_succ (a k : Nat) :
    delaysFrom a (k + 1) =
      composeRetryDelay (a + 1) :: delaysFrom (a + 1) k := by
  unfold delaysFrom
  rw [List.range_succ_eq_map, List.map_cons, List.map_map]
  congr 1
  congr 1
  funext i
  simp only [Function.comp_apply, composeRetryDelay]
  omega

/-- Behaviour of the retry loop when every `compose_up` attempt raises:
it ends by re-raising (`success = false`) with the clock strictly past
`totalTimeout`, makes at least one attempt from wherever it starts, sleeps
exactly `min(5 + k, 20)` after each failed attempt `k`, and whenever the
first attempt completes within the budget it retries at least once
more. -/
theorem retryLoop_allFail (attemptOk : Nat → Bool)
    (hfail : ∀ n, attemptOk n = false) (dur : Nat → Nat) (T : Nat) :
    ∀ (fuel elapsed attempt : Nat) (delays : List Nat),
      T + 1 - elapsed ≤ fuel →
      (retryLoop attemptOk dur T elapsed attempt delays).success = false ∧
      T < (retryLoop attemptOk dur T elapsed attempt delays).elapsed ∧
      attempt + 1 ≤ (retryLoop attemptOk dur T elapsed attempt delays).attempts ∧
      (retryLoop attemptOk dur T elapsed attempt delays).delays =
        delays ++ delaysFrom attempt
          ((retryLoop attemptOk dur T elapsed attempt delays).attempts - 1 - attempt) ∧
      (elapsed + dur (attempt + 1) ≤ T →
        attempt + 2 ≤ (retryLoop attemptOk dur T elapsed attempt delays).attempts) := by
  intro fuel
  induction fuel with
  | zero =>
    intro elapsed attempt delays h
    have hT : T < elapsed + dur (attempt + 1) := by omega
    rw [retryLoop, if_neg (by rw [hfail]; exact Bool.false_ne_true),
      dif_pos hT]
    refine ⟨rfl, hT, Nat.le_refl _, ?_, ?_⟩
    · show delays = delays ++ delaysFrom attempt (attempt + 1 - 1 - attempt)
      have hz : attempt + 1 - 1 - attempt = 0 := by omega
      rw [hz]
      simp [delaysFrom]
    · intro hc
      omega
  | succ fuel ih =>
    intro elapsed attempt delays h
    by_cases hT : T < elapsed + dur (attempt + 1)
    · rw [retryLoop, if_neg (by rw [hfail]; exact Bool.false_ne_true),
        dif_pos hT]
      refine ⟨rfl, hT, Nat.le_refl _, ?_, ?_⟩
      · show delays = delays ++ delaysFrom attempt (attempt + 1 - 1 - attempt)
        have hz : attempt + 1 - 1 - attempt = 0 := by omega
        rw [hz]
        simp [delaysFrom]
      · intro hc
        omega
    · rw [retryLoop, if_neg (by rw [hfail]; exact Bool.false_ne_true),
        dif_neg hT]
      have hdelay : 6 ≤ composeRetryDelay (attempt + 1) := by
        unfold composeRetryDelay
        omega
      have hmeas :
          T + 1 - (elapsed + dur (attempt + 1) + composeRetryDelay (attempt + 1)) ≤ fuel := by
        omega
      rcases ih (elapsed + dur (attempt + 1) + composeRetryDelay (attempt + 1))
        (attempt + 1) (delays ++ [composeRetryDelay (attempt + 1)]) hmeas with
        ⟨h1, h2, h3, h4, _⟩
      refine ⟨h1, h2, by omega, ?_, fun _ => h3⟩
      rw [h4]
      have hk :
          (retryLoop attemptOk dur T
            (elapsed + dur (attempt + 1) + composeRetryDelay (attempt + 1))
            (attempt + 1) (delays ++ [composeRetryDelay (attempt + 1)])).attempts
            - 1 - attempt =
          ((retryLoop attemptOk dur T
            (elapsed + dur (attempt + 1) + composeRetryDelay (attempt + 1))
            (attempt + 1) (delays ++ [composeRetryDelay (attempt + 1)])).attempts
            - 1 - (attempt + 1)) + 1 := by
        omega
      rw [hk, delaysFrom_succ]
      simp [List.append_assoc]

/-- C8: `compose_up_with_retry` with an always-failing `compose_up` never
retries forever — it re-raises with the elapsed clock strictly past
`total_timeout`, after at least one attempt, having slept exactly
`min(5 + k, 20)` time-units after each failed attempt `k` (watcher.py
lines 132-144); and whenever the first attempt fits inside the budget it
performs at least one retry before raising. -/
theorem C8_retry_bound (dur : Nat → Nat) (T : Nat) :
    (compose_up_with_retry (fun _ => false) dur T).success = false ∧
    T < (compose_up_with_retry (fun _ => false) dur T).elapsed ∧
    1 ≤ (compose_up_with_retry (fun _ => false) dur T).attempts ∧
    (compose_up_with_retry (fun _ => false) dur T).delays =
      delaysFrom 0 ((compose_up_with_retry (fun _ => false) dur T).attempts - 1) ∧
    (dur 1 ≤ T → 2 ≤ (compose_up_with_retry (fun _ => false) dur T).attempts) := by
  have main := retryLoop_allFail (fun _ => false) (fun _ => rfl) dur T
    (T + 1) 0 0 [] (by omega)
  refine ⟨main.1, main.2.1, main.2.2.1, ?_, ?_⟩
  · have h4 := main.2.2.2.1
    simpa [compose_up_with_retry] using h4
  · intro hd
    have h5 := main.2.2.2.2
    exact h5 (by simpa using hd)

/-- C8 witness: the theorem applied with zero-duration attempts and a
budget of 7 time-units; the budget hypothesis for the retry part is
discharged concretely. -/
theorem C8_witness :
    (compose_up_with_retry (fun _ => false) (fun _ => 0) 7).success = false ∧
    7 < (compose_up_with_retry (fun _ => false) (fun _ => 0) 7).elapsed ∧
    1 ≤ (compose_up_with_retry (fun _ => false) (fun _ => 0) 7).attempts ∧
    (compose_up_with_retry (fun _ => false) (fun _ => 0) 7).delays =
      delaysFrom 0
        ((compose_up_with_retry (fun _ => false) (fun _ => 0) 7).attempts - 1) ∧
    2 ≤ (compose_up_with_retry (fun _ => false) (fun _ => 0) 7).attempts := by
  have h := C8_retry_bound (fun _ => 0) 7
  exact ⟨h.1, h.2.1, h.2.2.1, h.2.2.2.1, h.2.2.2.2 (by omega)⟩

/-- C4 witness: the amended bound applied to a concrete tree in which one
stack sits three levels below the root and is found at `max_depth = 2`. -/
theorem C4_witness :
    1 ≤ (["a", "b", "c"] : List String).length ∧
    (["a", "b", "c"] : List String).length ≤ 2 + 1 ∧
    ∀ nm ∈ (["a", "b", "c"] : List String),
      defaultExcludes.contains nm = false :=
  C4_discovery_bounds_amended
    (FSTree.node []
      [("a", FSTree.node []
        [("b", FSTree.node []
          [("c", FSTree.node ["docker-compose.yml"] [])])])])
    2 defaultExcludes (["a", "b", "c"], "docker-compose.yml") (by decide)

/-- Shape of a tick whose git phase raises (caught by `except Exception`):
state untouched, failure reported. -/
theorem projectTick_gitFail (lcl : String) (st : ProjState) (env : TickEnv)
    (hg : env.gitOk = false) :
    projectTick lcl st env =
      ⟨st.lastSeen, st.pending, lcl, [Event.notifyFailed]⟩ := by
  simp [projectTick, hg]

/-- Shape of a healthy tick that needs no deploy: only the baseline
capture happens. -/
theorem projectTick_noop (lcl : String) (st : ProjState) (env : TickEnv)
    (hg : env.gitOk = true)
    (hneeds : (pyTruthy st.pending || (env.remoteHead != lcl)) = false) :
    projectTick lcl st env =
      ⟨some (st.lastSeen.getD lcl), st.pending, lcl, []⟩ := by
  simp [projectTick, hg, hneeds]

/-- Shape of a deploying tick whose hard reset raises: `pending` was
already overwritten with the current remote, the failure is reported. -/
theorem projectTick_resetFail (lcl : String) (st : ProjState) (env : TickEnv)
    (hg : env.gitOk = true) (hr : env.resetOk = false)
    (hneeds : (pyTruthy st.pending || (env.remoteHead != lcl)) = true) :
    projectTick lcl st env =
      ⟨some (st.lastSeen.getD lcl),
        some (if env.remoteHead = "" then "pending" else env.remoteHead),
        lcl, [Event.notifyFailed]⟩ := by
  simp [projectTick, hg, hr, hneeds]

/-- Shape of a deploying tick whose stack `i` is the first to fail:
`pending` holds the current remote, stacks up to `i` were attempted. -/
theorem projectTick_deployFail (lcl : String) (st : ProjState) (env : TickEnv)
    (i : Nat) (hg : env.gitOk = true) (hr : env.resetOk = true)
    (hneeds : (pyTruthy st.pending || (env.remoteHead != lcl)) = true)
    (hi : firstFailIdx env.deployOk env.stackList.length = some i) :
    projectTick lcl st env =
      ⟨some (st.lastSeen.getD lcl),
        some (if env.remoteHead = "" then "pending" else env.remoteHead),
        env.remoteHead,
        Event.reset env.remoteHead ::
          ((env.stackList.take (i + 1)).map Event.deployStack ++
            [Event.notifyFailed])⟩ := by
  simp [projectTick, hg, hr, hneeds, hi]

/-- Shape of a fully successful deploying tick: reset, all stacks, success
notification, `last_seen := remote or local`, `pending` popped. -/
theorem projectTick_deploySuccess (lcl : String) (st : ProjState) (env : TickEnv)
    (hg : env.gitOk = true) (hr : env.resetOk = true)
    (hneeds : (pyTruthy st.pending || (env.remoteHead != lcl)) = true)
    (hi : firstFailIdx env.deployOk env.stackList.length = none) :
    projectTick lcl st env =
      ⟨some (if env.remoteHead = "" then lcl else env.remoteHead), none,
        env.remoteHead,
        Event.reset env.remoteHead ::
          (env.stackList.map Event.deployStack ++
            [Event.notifyDeployed env.remoteHead])⟩ := by
  simp [projectTick, hg, hr, hneeds, hi]

/-- C1 counterexample.  The claim says that after a failed deploy the next
tick retries «that same stored commit, not a newer one».  Trace: tick 1
sets `pending = "B"`, resets to B and its deploy fails; before tick 2 the
remote advances to C; tick 2 overwrites `pending` with C (watcher.py line
393), resets to C and deploys C — not the stored B. -/
theorem C1_counterexample :
    ((runTicks "A" ⟨some "A", none⟩
        [⟨true, "B", true, [⟨"s", "docker-compose.yml"⟩], fun _ => false⟩,
         okEnv "C" [⟨"s", "docker-compose.yml"⟩]]).2.map
      (fun o => (o.pending, o.events))) =
      [(some "B",
        [Event.reset "B", Event.deployStack ⟨"s", "docker-compose.yml"⟩,
         Event.notifyFailed]),
       (none,
        [Event.reset "C", Event.deployStack ⟨"s", "docker-compose.yml"⟩,
         Event.notifyDeployed "C"])] ∧
    ("C" : String) ≠ "B" := by
  constructor
  · decide
  · decide

/-- C1 (amended): once `pending_commit` is set, every tick attempts a
deploy until one fully succeeds, and `pending_commit` is cleared only by
a tick whose git phase, reset and every stack deploy succeed, that tick
ending with the success notification for its own current remote head —
with which `pending_commit` was overwritten at the start of the attempt
(watcher.py line 393).  The retried deploy therefore targets the remote
head of the retry tick, which equals the originally stored commit only if
the remote has not moved; on any failure `pending_commit` remains set
(and truthy), so the next tick deploys again. -/
theorem C1_pending_cleared_only_on_success (lcl : String) (st : ProjState)
    (env : TickEnv) (hp : pyTruthy st.pending = true) :
    ((projectTick lcl st env).pending = none →
      env.gitOk = true ∧ env.resetOk = true ∧
      firstFailIdx env.deployOk env.stackList.length = none ∧
      (projectTick lcl st env).events =
        Event.reset env.remoteHead ::
          (env.stackList.map Event.deployStack ++
            [Event.notifyDeployed env.remoteHead])) ∧
    (env.gitOk = true → env.resetOk = true →
      (projectTick lcl st env).events.head? =
        some (Event.reset env.remoteHead)) ∧
    ((projectTick lcl st env).pending ≠ none →
      pyTruthy (projectTick lcl st env).pending = true) := by
  have hneeds : (pyTruthy st.pending || (env.remoteHead != lcl)) = true := by
    rw [hp, Bool.true_or]
  cases hg : env.gitOk with
  | false =>
    rw [projectTick_gitFail lcl st env hg]
    refine ⟨?_, ?_, ?_⟩
    · intro hnone
      replace hnone : st.pending = none := hnone
      rw [hnone] at hp
      simp [pyTruthy] at hp
    · intro hgt
      exact absurd hgt Bool.false_ne_true
    · intro _
      exact hp
  | true =>
    cases hr : env.resetOk with
    | false =>
      rw [projectTick_resetFail lcl st env hg hr hneeds]
      refine ⟨?_, ?_, ?_⟩
      · intro hnone
        replace hnone :
            (some (if env.remoteHead = "" then "pending" else env.remoteHead) :
              Option String) = none := hnone
        cases hnone
      · intro _ hrt
        exact absurd hrt Bool.false_ne_true
      · intro _
        show pyTruthy (some (if env.remoteHead = "" then "pending"
          else env.remoteHead)) = true
        by_cases hrem : env.remoteHead = ""
        · simp [pyTruthy, hrem]
        · simp [pyTruthy, hrem]
    | true =>
      cases hi : firstFailIdx env.deployOk env.stackList.length with
      | some i =>
        rw [projectTick_deployFail lcl st env i hg hr hneeds hi]
        refine ⟨?_, ?_, ?_⟩
        · intro hnone
          replace hnone :
              (some (if env.remoteHead = "" then "pending" else env.remoteHead) :
                Option String) = none := hnone
          cases hnone
        · intro _ _
          rfl
        · intro _
          show pyTruthy (some (if env.remoteHead = "" then "pending"
            else env.remoteHead)) = true
          by_cases hrem : env.remoteHead = ""
          · simp [pyTruthy, hrem]
          · simp [pyTruthy, hrem]
      | none =>
        rw [projectTick_deploySuccess lcl st env hg hr hneeds hi]
        refine ⟨?_, ?_, ?_⟩
        · intro _
          exact ⟨rfl, rfl, rfl, rfl⟩
        · intro _ _
          rfl
        · intro hne
          exact absurd rfl hne

/-- C1 witness: the amended theorem at a tick with `pending` set and a
fully successful deploy. -/
theorem C1_witness :
    ((projectTick "A" ⟨some "A", some "B"⟩ (okEnv "B" [])).pending = none →
      (okEnv "B" []).gitOk = true ∧ (okEnv "B" []).resetOk = true ∧
      firstFailIdx (okEnv "B" []).deployOk (okEnv "B" []).stackList.length = none ∧
      (projectTick "A" ⟨some "A", some "B"⟩ (okEnv "B" [])).events =
        Event.reset (okEnv "B" []).remoteHead ::
          ((okEnv "B" []).stackList.map Event.deployStack ++
            [Event.notifyDeployed (okEnv "B" []).remoteHead])) ∧
    ((okEnv "B" []).gitOk = true → (okEnv "B" []).resetOk = true →
      (projectTick "A" ⟨some "A", some "B"⟩ (okEnv "B" [])).events.head? =
        some (Event.reset (okEnv "B" []).remoteHead)) ∧
    ((projectTick "A" ⟨some "A", some "B"⟩ (okEnv "B" [])).pending ≠ none →
      pyTruthy (projectTick "A" ⟨some "A", some "B"⟩ (okEnv "B" [])).pending = true) :=
  C1_pending_cleared_only_on_success "A" ⟨some "A", some "B"⟩ (okEnv "B" [])
    (by decide)

theorem countEv_append (p : Event → Bool) (l1 l2 : List TickOut) :
    countEv p (l1 ++ l2) = countEv p l1 + countEv p l2 := by
  simp [countEv]

theorem countEv_replicate_nil (p : Event → Bool) (k : Nat) (o : TickOut)
    (ho : o.events = []) : countEv p (List.replicate k o) = 0 := by
  simp [countEv, List.map_replicate, ho]

/-- With every stack deploy succeeding there is no first failing stack. -/
theorem firstFailIdx_allOk (n : Nat) :
    firstFailIdx (fun _ => true) n = none := by
  simp [firstFailIdx]

/-- A healthy in-sync tick with the baseline captured is a no-op. -/
theorem okEnv_noop (c x : String) (ss : List Stack) :
    projectTick c ⟨some x, none⟩ (okEnv c ss) = ⟨some x, none, c, []⟩ := by
  have h := projectTick_noop c ⟨some x, none⟩ (okEnv c ss) rfl
    (by simp [pyTruthy, okEnv])
  simpa using h

/-- A healthy tick whose remote differs from the local head performs the
full successful deploy sequence. -/
theorem okEnv_deploy (lcl b x : String) (ss : List Stack)
    (hb : (b != lcl) = true) :
    projectTick lcl ⟨some x, none⟩ (okEnv b ss) =
      ⟨some (if b = "" then lcl else b), none, b,
        Event.reset b ::
          (ss.map Event.deployStack ++ [Event.notifyDeployed b])⟩ := by
  have h := projectTick_deploySuccess lcl ⟨some x, none⟩ (okEnv b ss) rfl rfl
    (by simp [pyTruthy, okEnv, hb]) (firstFailIdx_allOk ss.length)
  simpa [okEnv] using h

/-- A run of healthy in-sync ticks does nothing, any number of times. -/
theorem runTicks_noop_replicate (c x : String) (ss : List Stack) (k : Nat) :
    runTicks c ⟨some x, none⟩ (List.replicate k (okEnv c ss)) =
      ((c, ⟨some x, none⟩), List.replicate k ⟨some x, none, c, []⟩) := by
  induction k with
  | zero => rfl
  | succ k ih =>
    rw [List.replicate_succ]
    simp [runTicks, okEnv_noop, ih, List.replicate_succ]

/-- Running a concatenated schedule runs the first part, then the second
from the resulting state. -/
theorem runTicks_append (lcl : String) (st : ProjState)
    (l1 l2 : List TickEnv) :
    runTicks lcl st (l1 ++ l2) =
      ((runTicks (runTicks lcl st l1).1.1 (runTicks lcl st l1).1.2 l2).1,
       (runTicks lcl st l1).2 ++
         (runTicks (runTicks lcl st l1).1.1 (runTicks lcl st l1).1.2 l2).2) := by
  induction l1 generalizing lcl st with
  | nil => simp [runTicks]
  | cons e rest ih =>
    simp [runTicks, ih]

theorem filter_deployStack_reset (ss : List Stack) :
    (ss.map Event.deployStack).filter isResetEv = [] := by
  induction ss with
  | nil => rfl
  | cons s t ih => simp [isResetEv, ih]

theorem filter_deployStack_deployed (ss : List Stack) :
    (ss.map Event.deployStack).filter isDeployedEv = [] := by
  induction ss with
  | nil => rfl
  | cons s t ih => simp [isDeployedEv, ih]

/-- The events of one full successful deploy tick contain exactly one
completed reset and one success notification. -/
theorem deploy_events_counts (b : String) (ss : List Stack) :
    ((Event.reset b ::
      (ss.map Event.deployStack ++ [Event.notifyDeployed b])).filter
        isResetEv).length = 1 ∧
    ((Event.reset b ::
      (ss.map Event.deployStack ++ [Event.notifyDeployed b])).filter
        isDeployedEv).length = 1 := by
  constructor
  · simp [isResetEv, List.filter_append, filter_deployStack_reset]
  · simp [isDeployedEv, List.filter_append, filter_deployStack_deployed]

/-- C6: over a schedule of healthy ticks in which the remote head shows
`a` for `m` ticks, then transitions once to `b` and stays there for `n`
further ticks — the project starting in sync at `a` with its baseline
captured — exactly one hard reset and exactly one deploy sequence (one
success notification) occur, regardless of how many ticks precede or
follow the transition (watcher.py lines 387-428). -/
theorem C6_exactly_once_deploy (a b : String) (m n : Nat) (ss : List Stack)
    (hab : a ≠ b) :
    countEv isResetEv
      (runTicks a ⟨some a, none⟩
        (List.replicate m (okEnv a ss) ++
          okEnv b ss :: List.replicate n (okEnv b ss))).2 = 1 ∧
    countEv isDeployedEv
      (runTicks a ⟨some a, none⟩
        (List.replicate m (okEnv a ss) ++
          okEnv b ss :: List.replicate n (okEnv b ss))).2 = 1 := by
  have hb : (b != a) = true := by
    simp [bne_iff_ne]
    exact fun h => hab h.symm
  have hstep :
      runTicks a ⟨some a, none⟩ (okEnv b ss :: List.replicate n (okEnv b ss)) =
        ((b, ⟨some (if b = "" then a else b), none⟩),
          (⟨some (if b = "" then a else b), none, b,
            Event.reset b ::
              (ss.map Event.deployStack ++ [Event.notifyDeployed b])⟩ :
            TickOut) ::
            List.replicate n
              (⟨some (if b = "" then a else b), none, b, []⟩ : TickOut)) := by
    simp only [runTicks, okEnv_deploy a b a ss hb]
    rw [runTicks_noop_replicate b (if b = "" then a else b) ss n]
  rw [runTicks_append, runTicks_noop_replicate a a ss m, hstep]
  constructor
  · rw [countEv_append, countEv_replicate_nil _ _ _ rfl]
    simp only [countEv, List.map_cons, List.map_replicate, List.sum_cons]
    rw [(deploy_events_counts b ss).1]
    simp
  · rw [countEv_append, countEv_replicate_nil _ _ _ rfl]
    simp only [countEv, List.map_cons, List.map_replicate, List.sum_cons]
    rw [(deploy_events_counts b ss).2]
    simp

/-- C6 witness: the theorem at a concrete schedule — two in-sync ticks,
the transition tick, two follow-up ticks, one stack. -/
theorem C6_witness :
    countEv isResetEv
      (runTicks "A" ⟨some "A", none⟩
        (List.replicate 2 (okEnv "A" [⟨"web", "compose.yml"⟩]) ++
          okEnv "B" [⟨"web", "compose.yml"⟩] ::
            List.replicate 2 (okEnv "B" [⟨"web", "compose.yml"⟩]))).2 = 1 ∧
    countEv isDeployedEv
      (runTicks "A" ⟨some "A", none⟩
        (List.replicate 2 (okEnv "A" [⟨"web", "compose.yml"⟩]) ++
          okEnv "B" [⟨"web", "compose.yml"⟩] ::
            List.replicate 2 (okEnv "B" [⟨"web", "compose.yml"⟩]))).2 = 1 :=
  C6_exactly_once_deploy "A" "B" 2 2 [⟨"web", "compose.yml"⟩] (by decide)

/-- One tick over two valid projects: both bodies run and the loop
continues, whatever each body does. -/
theorem tickProjects_pair (A B : ProjCell) (eA eB : TickEnv)
    (hA : ¬ A.proj.repoUrl = "") (hB : ¬ B.proj.repoUrl = "") :
    tickProjects [(A, eA), (B, eB)] =
      TickAll.ok
        [(⟨A.proj, (projectTick A.localHead A.state eA).localHead,
            ⟨(projectTick A.localHead A.state eA).lastSeen,
             (projectTick A.localHead A.state eA).pending⟩⟩,
          projectTick A.localHead A.state eA),
         (⟨B.proj, (projectTick B.localHead B.state eB).localHead,
            ⟨(projectTick B.localHead B.state eB).lastSeen,
             (projectTick B.localHead B.state eB).pending⟩⟩,
          projectTick B.localHead B.state eB)] := by
  simp [tickProjects, hA, hB]

/-- C7: with two configured projects whose `repo_url`s are non-empty, and
project A's git phase failing on every tick, the loop never terminates by
`SystemExit`, A's cell and state never change while its failure is
reported each tick, and B runs exactly as it would alone: the run equals
B's solo run zipped with A's constant failure output (watcher.py lines
370-441, the per-project `try/except Exception`). -/
theorem C7_per_project_isolation (A B : ProjCell)
    (pairs : List (TickEnv × TickEnv))
    (hA : ¬ A.proj.repoUrl = "") (hB : ¬ B.proj.repoUrl = "")
    (hfailA : ∀ p ∈ pairs, p.1.gitOk = false) :
    runLoop [A, B] (pairs.map (fun p => [p.1, p.2])) =
      ([A, ⟨B.proj, (runTicks B.localHead B.state (pairs.map Prod.snd)).1.1,
          (runTicks B.localHead B.state (pairs.map Prod.snd)).1.2⟩],
       (runTicks B.localHead B.state (pairs.map Prod.snd)).2.map
         (fun ob =>
           [⟨A.state.lastSeen, A.state.pending, A.localHead,
             [Event.notifyFailed]⟩, ob]),
       false) := by
  induction pairs generalizing B with
  | nil =>
    simp [runLoop, runTicks]
  | cons p rest ih =>
    have hp1 : p.1.gitOk = false := hfailA p (List.mem_cons_self p rest)
    have hrest : ∀ q ∈ rest, q.1.gitOk = false :=
      fun q hq => hfailA q (List.mem_cons_of_mem p hq)
    have hA2 := projectTick_gitFail A.localHead A.state p.1 hp1
    simp only [List.map_cons, runLoop, List.zip_cons_cons, List.zip_nil_right]
    rw [tickProjects_pair A B p.1 p.2 hA hB, hA2]
    set outB := projectTick B.localHead B.state p.2 with houtB
    set B2 : ProjCell := ⟨B.proj, outB.localHead, ⟨outB.lastSeen, outB.pending⟩⟩
      with hB2
    have hB2url : ¬ B2.proj.repoUrl = "" := hB
    have := ih B2 hB2url hrest
    simp only [List.map_cons, List.map_nil] at this ⊢
    rw [this]
    simp [runTicks, hB2, houtB]

/-- C7 witness: the isolation theorem at one concrete tick — project A
(valid URL, git phase raising) next to project B (valid URL, healthy
deploy of a new remote head). -/
theorem C7_witness :
    runLoop
      [⟨⟨"alpha", "https://example.com/a.git", "/srv/a"⟩, "a0", ⟨some "a0", none⟩⟩,
       ⟨⟨"beta", "https://example.com/b.git", "/srv/b"⟩, "b0", ⟨some "b0", none⟩⟩]
      (([((⟨false, "", true, [], fun _ => true⟩ : TickEnv), okEnv "b1" [])]).map
        (fun p => [p.1, p.2])) =
      ([⟨⟨"alpha", "https://example.com/a.git", "/srv/a"⟩, "a0", ⟨some "a0", none⟩⟩,
        ⟨⟨"beta", "https://example.com/b.git", "/srv/b"⟩,
          (runTicks "b0" ⟨some "b0", none⟩
            (([((⟨false, "", true, [], fun _ => true⟩ : TickEnv),
              okEnv "b1" [])]).map Prod.snd)).1.1,
          (runTicks "b0" ⟨some "b0", none⟩
            (([((⟨false, "", true, [], fun _ => true⟩ : TickEnv),
              okEnv "b1" [])]).map Prod.snd)).1.2⟩],
       (runTicks "b0" ⟨some "b0", none⟩
         (([((⟨false, "", true, [], fun _ => true⟩ : TickEnv),
           okEnv "b1" [])]).map Prod.snd)).2.map
         (fun ob => [⟨some "a0", none, "a0", [Event.notifyFailed]⟩, ob]),
       false) :=
  C7_per_project_isolation
    ⟨⟨"alpha", "https://example.com/a.git", "/srv/a"⟩, "a0", ⟨some "a0", none⟩⟩
    ⟨⟨"beta", "https://example.com/b.git", "/srv/b"⟩, "b0", ⟨some "b0", none⟩⟩
    [((⟨false, "", true, [], fun _ => true⟩ : TickEnv), okEnv "b1" [])]
    (by decide) (by decide)
    (fun p hp => by rw [List.mem_singleton.mp hp])

end Homelab
